import Mathlib

/-!
Verification of the orchestration layer of spectronaut-webui.

This file gives a shallow embedding of the relevant parts of
`spectronaut_webui/helpers.py` and `spectronaut_webui/main.py` and proves the
testable properties of the specification against it.  Pure Python functions
become Lean functions; the effectful pieces (subprocess spawning, extraction
workers, the DirectDIA workflow) are embedded as functions from an explicit
environment (filesystem contents, process behaviours, worker outcomes) to a
result together with a trace of the externally visible events.
-/

/-- One row of the data-file table.  Mirrors the dict built by
`add_to_datafiles` in `main.py`: keys `name`, `type`, `path`, `replicate`,
`condition`, `fraction` (strings) and `reference` (bool). -/
structure DataFileEntry where
  name : String
  type : String
  path : String
  replicate : String
  condition : String
  fraction : String
  reference : Bool
deriving DecidableEq

/-- The set comprehension on the first line of `helpers.validate_filetable`:
the set of `type` values occurring in the filetable. -/
def typesOf (filetable : List DataFileEntry) : Finset String :=
  (filetable.map (fun f => f.type)).toFinset

/-- Embedding of `helpers.validate_filetable`: collect the set of `type`
values of the table and accept exactly a single Thermo family, a single
Bruker family, or the two Bruker families together. -/
def validate_filetable (filetable : List DataFileEntry) : Bool :=
  if (typesOf filetable).card = 1 ∧ "Thermo Raw" ∈ typesOf filetable then true
  else if (typesOf filetable).card = 1 ∧
      ("Bruker D" ∈ typesOf filetable ∨ "Bruker D Zip" ∈ typesOf filetable) then true
  else if (typesOf filetable).card = 2 ∧ "Bruker D" ∈ typesOf filetable ∧
      "Bruker D Zip" ∈ typesOf filetable then true
  else false

/-- Concrete Thermo entry used in witnesses. -/
def exThermo : DataFileEntry :=
  { name := "s1.raw", type := "Thermo Raw", path := "/data/s1.raw",
    replicate := "", condition := "", fraction := "", reference := false }

/-- Concrete Bruker folder entry used in witnesses. -/
def exBrukerD : DataFileEntry :=
  { name := "s2.d", type := "Bruker D", path := "/data/s2.d",
    replicate := "", condition := "", fraction := "", reference := false }

/-- Concrete Bruker zip entry used in witnesses. -/
def exBrukerZip : DataFileEntry :=
  { name := "s3.d.zip", type := "Bruker D Zip", path := "/data/s3.d.zip",
    replicate := "", condition := "", fraction := "", reference := false }

/-- Python `str(path) + '/' + name`, i.e. `Path(p).joinpath(name)` for the
normalized path strings the program passes around. -/
def pyJoin (p name : String) : String := p ++ "/" ++ name

/-- Python `Path(s).name`: the final path component (ignoring trailing
separators). -/
def pyName (s : String) : String :=
  let r := s.toList.reverse.dropWhile (fun c => c = '/')
  ⟨(r.takeWhile (fun c => c ≠ '/')).reverse⟩

/-- Python `Path(s).parent` for a normalized path that has a separator:
everything before the last `/`. -/
def pyParent (s : String) : String :=
  let r := s.toList.reverse
  ⟨((r.dropWhile (fun c => c ≠ '/')).drop 1).reverse⟩

/-- Python `Path(s).stem`: the final component without its last suffix.  The
suffix is dropped only when the last dot is neither the first nor the last
character of the component, as in `pathlib`. -/
def pyStem (s : String) : String :=
  let n := pyName s
  let cs := n.toList
  match cs.reverse.findIdx? (fun c => c = '.') with
  | none => n
  | some j =>
    let i := cs.length - 1 - j
    if 0 < i ∧ i < cs.length - 1 then ⟨cs.take i⟩ else n

/-- Python `str.strip()`: drop leading and trailing whitespace. -/
def pyStrip (s : String) : String :=
  ⟨((s.toList.dropWhile Char.isWhitespace).reverse.dropWhile Char.isWhitespace).reverse⟩

/-- Python `str.lower()` for the ASCII strings handled here. -/
def pyLower (s : String) : String := ⟨s.toList.map Char.toLower⟩

/-- The blank test of `helpers.write_conditon_file` (line 147):
`s.strip().lower() in ['', 'none', 'nan']`. -/
def pyBlank (s : String) : Bool :=
  let t := pyLower (pyStrip s)
  t == "" || t == "none" || t == "nan"

/-- The placeholder substitution of `write_conditon_file` (lines 143-144):
blank fraction/condition fields become `'NA'`. -/
def substNA (s : String) : String := if s = "" then "NA" else s

/-- Lines 143-144 of `helpers.py` applied to every row: replace blank
`fraction` and `condition` fields by `'NA'`. -/
def substEntries (filetable : List DataFileEntry) : List DataFileEntry :=
  filetable.map (fun e => { e with fraction := substNA e.fraction, condition := substNA e.condition })

/-- The `groupby(['fraction', 'condition'])['replicate'].transform(...)` of
lines 148-149: walking the rows in order, each row receives replicate number
`1 +` the number of earlier rows with the same `(fraction, condition)` key.
`seen` is the list of keys of the rows already visited. -/
def assignReps (seen : List (String × String)) : List DataFileEntry → List DataFileEntry
  | [] => []
  | e :: rest =>
    { e with replicate := toString (seen.count (e.fraction, e.condition) + 1) } ::
      assignReps ((e.fraction, e.condition) :: seen) rest

/-- One output row of the condition table, fields in the column order of the
final `df.loc[:, [...]]` selection (line 161-162). -/
structure CondRow where
  seq : Nat
  reference : Bool
  runLabel : String
  condition : String
  fraction : String
  replicate : String
  label : String
  fileName : String
deriving DecidableEq

/-- Build one condition-table row from a (substituted, replicate-assigned)
entry: `#` is the sequence number, `Run Label` the entry name, `Label`
mirrors `Condition`, `File Name` is the stem of the entry name. -/
def mkRow (i : Nat) (e : DataFileEntry) : CondRow :=
  { seq := i, reference := e.reference, runLabel := e.name, condition := e.condition,
    fraction := e.fraction, replicate := e.replicate, label := e.condition,
    fileName := pyStem e.name }

/-- The rows of the condition table, numbered from `i` upwards
(`df['#'] = range(1, len(df) + 1)`). -/
def rowsFrom (i : Nat) : List DataFileEntry → List CondRow
  | [] => []
  | e :: rest => mkRow i e :: rowsFrom (i + 1) rest

/-- Embedding of the dataframe manipulation of `helpers.write_conditon_file`:
substitute `'NA'` for blank fraction/condition fields, auto-assign replicate
numbers per `(fraction, condition)` group when the whole replicate column is
blank, and record whether the partially-blank warning fires.  Returns the
table rows and the warning flag. -/
def write_conditon_rows (filetable : List DataFileEntry) : List CondRow × Bool :=
  let df := substEntries filetable
  let df2 := if df.all (fun e => pyBlank e.replicate) then assignReps [] df else df
  (rowsFrom 1 df2, df2.any (fun e => pyBlank e.replicate))

/-- Python `str` of a bool, as `pandas.to_csv` renders the `Reference`
column. -/
def boolStr (b : Bool) : String := if b then "True" else "False"

/-- The header line of the written condition table. -/
def headerLine : String :=
  "#\tReference\tRun Label\tCondition\tFraction\tReplicate\tLabel\tFile Name"

/-- One data line of the written condition table: the eight columns joined by
tabs, in the order of the `df.loc` selection. -/
def rowLine (r : CondRow) : String :=
  String.intercalate "\t" [toString r.seq, boolStr r.reference, r.runLabel, r.condition,
    r.fraction, r.replicate, r.label, r.fileName]

/-- Embedding of `helpers.write_conditon_file`: the lines of the
tab-separated file written to `output_path` (header first), plus the warning
flag. -/
def write_conditon_file (filetable : List DataFileEntry) : List String × Bool :=
  (headerLine :: (write_conditon_rows filetable).1.map rowLine,
    (write_conditon_rows filetable).2)

/-- Environment of one `_extract_zip_worker` call: either `extractall`
completed (and the marker file `analysis.tdf` does or does not exist under
the extraction directory afterwards), or an I/O / zip-format exception was
raised while opening or extracting the archive. -/
inductive ExtractEnv where
  | extracted (markerExists : Bool)
  | raises (msg : String)
deriving DecidableEq

/-- The error message built on lines 115 and 117 of `helpers.py`. -/
def missingMsg (zipPath : String) : String :=
  "Missing analysis.tdf after extraction for " ++ zipPath

/-- Embedding of `helpers._extract_zip_worker`: unpack `zipPath` into
`extractPath`, then look for `analysis.tdf` directly under it; return
`(idx, True, str(real_path.parent), '')` on success and
`(idx, False, '', message)` when the marker is missing or an exception was
caught.  The catch-all `except Exception` makes the worker total. -/
def _extract_zip_worker (idx : Nat) (zipPath extractPath : String) (env : ExtractEnv) :
    Nat × Bool × String × String :=
  match env with
  | .extracted true => (idx, true, pyParent (pyJoin extractPath "analysis.tdf"), "")
  | .extracted false => (idx, false, "", missingMsg zipPath)
  | .raises m => (idx, false, "", m)

/-- Behaviour of the environment during one `run_cmd` call: the spawn fails,
or the process streams to EOF and exits with code `rc` (before the timeout,
when one is set), or the `wait_for` timeout fires, or the calling task is
cancelled while streaming. -/
inductive RunEnv where
  | spawnFail (msg : String)
  | completes (rc : Int)
  | timesOut
  | cancelledDuring
deriving DecidableEq

/-- Externally visible actions of one `run_cmd` call, in order: spawning the
process, logging an error, killing the process, awaiting its exit. -/
inductive CmdAct where
  | spawn
  | logErr
  | kill
  | wait
deriving DecidableEq

/-- What `run_cmd` does to its caller: return a boolean, or re-raise the
cancellation. -/
inductive CmdOutcome where
  | ret (b : Bool)
  | raisedCancelled
deriving DecidableEq

/-- Embedding of `helpers.run_cmd` at the granularity of its control flow:
spawn failure is caught by the outer handler (log, return False); normal
completion returns `rc == 0`; `TimeoutError` logs, kills, waits and returns
False; `CancelledError` kills, waits and re-raises. -/
def runCmd (env : RunEnv) : CmdOutcome × List CmdAct :=
  match env with
  | .spawnFail _ => (.ret false, [.logErr])
  | .completes rc => (.ret (rc == 0), [.spawn, .wait])
  | .timesOut => (.ret false, [.spawn, .logErr, .kill, .wait])
  | .cancelledDuring => (.raisedCancelled, [.spawn, .kill, .wait])

/-- Concrete all-blank batch used in witnesses: two rows in group
`("f1", "c")` and one in `("f2", "c")`. -/
def c5ftA : List DataFileEntry :=
  [{ name := "a.raw", type := "Thermo Raw", path := "/a.raw", replicate := "",
     condition := "c", fraction := "f1", reference := false },
   { name := "b.raw", type := "Thermo Raw", path := "/b.raw", replicate := "",
     condition := "c", fraction := "f1", reference := false },
   { name := "c.raw", type := "Thermo Raw", path := "/c.raw", replicate := "",
     condition := "c", fraction := "f2", reference := false }]

/-- Concrete partially-filled batch used in witnesses. -/
def c5ftB : List DataFileEntry :=
  [{ name := "a.raw", type := "Thermo Raw", path := "/a.raw", replicate := "",
     condition := "c", fraction := "f1", reference := false },
   { name := "b.raw", type := "Thermo Raw", path := "/b.raw", replicate := "2",
     condition := "c", fraction := "f1", reference := false }]

/-- Concrete batch whose replicate fields are blank only in the extended
sense (`"None"`, `" nan "`). -/
def c10ftA : List DataFileEntry :=
  [{ name := "a.raw", type := "Thermo Raw", path := "/a.raw", replicate := "None",
     condition := "c", fraction := "f", reference := false },
   { name := "b.raw", type := "Thermo Raw", path := "/b.raw", replicate := " nan ",
     condition := "c", fraction := "f", reference := false }]

/-- Concrete batch mixing an extended-blank replicate with a filled one. -/
def c10ftB : List DataFileEntry :=
  [{ name := "a.raw", type := "Thermo Raw", path := "/a.raw", replicate := "NaN",
     condition := "c", fraction := "f", reference := false },
   { name := "b.raw", type := "Thermo Raw", path := "/b.raw", replicate := "2",
     condition := "c", fraction := "f", reference := false }]


/-- The `args` dict assembled by the DirectDIA page of `main.py` (the
convert page omits some keys, which corresponds to leaving them at their
blank/false defaults). -/
structure RunArgs where
  protocol : String
  experiment_name : String
  properties_file : String
  fasta_file : String
  go_file : String
  report_file : String
  output_directory : String
  temp_directory : String
  mod_repository : String
  enzyme_database : String
  condition_file : String
  verbose : Bool
  parquet : Bool
  segmented : Bool
  error_term : Bool
  datafiles : List DataFileEntry
deriving DecidableEq

/-- Embedding of `helpers._parse_args`: one list of token lists, one entry
appended per truthy option, in source order.  Python string truthiness is
non-emptiness. -/
def _parse_args (a : RunArgs) : List (List String) :=
  (if a.temp_directory ≠ "" then [["-setTemp", a.temp_directory]] else []) ++
  (if a.mod_repository ≠ "" then [["--importModRepository", a.mod_repository]] else []) ++
  (if a.enzyme_database ≠ "" then [["--importEnzymeDB", a.enzyme_database]] else []) ++
  (if a.protocol ≠ "" then [[a.protocol]] else []) ++
  (if a.experiment_name ≠ "" then [["-n", a.experiment_name]] else []) ++
  (if a.condition_file ≠ "" then [["-con", a.condition_file]] else []) ++
  (if a.properties_file ≠ "" then [["-s", a.properties_file]] else []) ++
  (if a.report_file ≠ "" then [["-rs", a.report_file]] else []) ++
  (if a.fasta_file ≠ "" then [["-fasta", a.fasta_file]] else []) ++
  (if a.go_file ≠ "" then [["-go", a.go_file]] else []) ++
  (if a.output_directory ≠ "" then [["-o", a.output_directory]] else []) ++
  (if a.verbose then [["--verbose"]] else []) ++
  (if a.parquet then [["--writeParquet"]] else []) ++
  (if a.error_term then [["--terminateAfterError"]] else []) ++
  (if a.segmented then [["-segmented"]] else [])

/-- Embedding of `helpers.get_args`: flatten the parsed blocks with
`functools.reduce(lambda i, j: i + j, ..., [])`. -/
def get_args (a : RunArgs) : List String :=
  (_parse_args a).foldl (fun i j => i ++ j) []

/-- Embedding of `helpers.get_full_args`: the flattened option blocks
followed by one `-r <path>` pair per data file. -/
def get_full_args (a : RunArgs) : List String :=
  a.datafiles.foldl (fun acc f => acc ++ ["-r", f.path]) (get_args a)

/-- Concrete options record used in witnesses. -/
def c7args : RunArgs :=
  { protocol := "direct", experiment_name := "exp", properties_file := "/p/prop.txt",
    fasta_file := "/p/db.fasta", go_file := "", report_file := "", output_directory := "/out",
    temp_directory := "/tmpdir", mod_repository := "", enzyme_database := "", condition_file := "",
    verbose := true, parquet := false, segmented := false, error_term := false,
    datafiles := [exThermo] }



/-- Externally visible events of one DirectDIA workflow invocation:
directory creation, file copies, the condition-file write, and external-tool
invocations. -/
inductive FsEv where
  | mkdir (p : String)
  | copy (src dst : String)
  | write (p : String)
  | run (cmd : List String)
deriving DecidableEq

/-- Is this event the spawn of an external process. -/
def isRunEv : FsEv → Bool
  | .run _ => true
  | _ => false

/-- Result of one `helpers.run_cmd` call as seen by `process_direct`: a
boolean completion or a re-raised cancellation. -/
inductive RunRes where
  | completed (ok : Bool)
  | cancelled
deriving DecidableEq

/-- How `prepare_datafiles_async` ends: normally, with a `CancelledError`,
or with some other exception. -/
inductive PrepSignal where
  | ok
  | cancelled
  | failed
deriving DecidableEq

/-- Environment of the preparation step: the filetable after its in-place
mutation, and how the step ended. -/
structure PrepRes where
  ft : List DataFileEntry
  sig : PrepSignal
deriving DecidableEq

/-- Outcome of `process_direct`: an early `return` (validation or
preparation failure), a propagated cancellation, or the final success
value. -/
inductive WfOutcome where
  | earlyReturn
  | cancelled
  | finished (success : Bool)
deriving DecidableEq

/-- Lines 186-187 of `main.py`: create the output directory only when it
does not exist (`fs` is the set of existing paths). -/
def mkdirEvs (fs : List String) (p : String) : List FsEv :=
  if fs.contains p then [] else [FsEv.mkdir p]

/-- The `data` folder created under the output directory. -/
def dataDir (a : RunArgs) : String := pyJoin a.output_directory "data"

/-- The `params` folder created under the output directory. -/
def paramsDir (a : RunArgs) : String := pyJoin a.output_directory "params"

/-- Placeholder entry; `process_direct` reads `datafiles[0]` only after the
non-empty check. -/
def defaultEntry : DataFileEntry :=
  { name := "", type := "", path := "", replicate := "", condition := "", fraction := "",
    reference := false }

/-- Lines 197-198 of `main.py`: an empty experiment name defaults to the
stem of the first data file. -/
def expNameOf (a : RunArgs) : String :=
  if a.experiment_name = "" then pyStem (a.datafiles.headD defaultEntry).name
  else a.experiment_name

/-- Lines 205-213 of `main.py` (properties and FASTA files): when the file
exists it is copied into `params` and the argument is repointed there. -/
def copyDstE (fs : List String) (pf src : String) : String :=
  if fs.contains src then pyJoin pf (pyName src) else src

/-- The copy event of `copyDstE`, when it happens. -/
def copyEvsE (fs : List String) (pf src : String) : List FsEv :=
  if fs.contains src then [FsEv.copy src (pyJoin pf (pyName src))] else []

/-- Lines 215-233 of `main.py` (GO, report, mod-repository and enzyme-DB
files): they are copied only when non-empty AND existing. -/
def copyDstG (fs : List String) (pf src : String) : String :=
  if src ≠ "" ∧ fs.contains src then pyJoin pf (pyName src) else src

/-- The copy event of `copyDstG`, when it happens. -/
def copyEvsG (fs : List String) (pf src : String) : List FsEv :=
  if src ≠ "" ∧ fs.contains src then [FsEv.copy src (pyJoin pf (pyName src))] else []

/-- All filesystem events of the setup phase of `process_direct`, in
program order: output/data/params directory creation, then the parameter
file copies. -/
def setupEvs (fs : List String) (a : RunArgs) : List FsEv :=
  mkdirEvs fs a.output_directory ++ [FsEv.mkdir (dataDir a), FsEv.mkdir (paramsDir a)] ++
  copyEvsE fs (paramsDir a) a.properties_file ++ copyEvsE fs (paramsDir a) a.fasta_file ++
  copyEvsG fs (paramsDir a) a.go_file ++ copyEvsG fs (paramsDir a) a.report_file ++
  copyEvsG fs (paramsDir a) a.mod_repository ++ copyEvsG fs (paramsDir a) a.enzyme_database

/-- The `args` dict as mutated by the setup phase of `process_direct`. -/
def setupArgs (fs : List String) (a : RunArgs) : RunArgs :=
  { a with
    experiment_name := expNameOf a,
    properties_file := copyDstE fs (paramsDir a) a.properties_file,
    fasta_file := copyDstE fs (paramsDir a) a.fasta_file,
    go_file := copyDstG fs (paramsDir a) a.go_file,
    report_file := copyDstG fs (paramsDir a) a.report_file,
    mod_repository := copyDstG fs (paramsDir a) a.mod_repository,
    enzyme_database := copyDstG fs (paramsDir a) a.enzyme_database }

/-- The validation-and-setup phase of `main.process_direct` (lines
178-239), in source order: empty-filetable check, empty-output-directory
check, output-directory creation, empty-properties check, empty-FASTA check,
folder creation and file copies, and finally the `validate_filetable` check.
`error` is an early `return`, carrying the events emitted so far. -/
def setup_direct (fs : List String) (a : RunArgs) : Except (List FsEv) (RunArgs × List FsEv) :=
  if a.datafiles.isEmpty then .error []
  else if a.output_directory = "" then .error []
  else if a.properties_file = "" then .error (mkdirEvs fs a.output_directory)
  else if a.fasta_file = "" then .error (mkdirEvs fs a.output_directory)
  else if validate_filetable a.datafiles then .ok (setupArgs fs a, setupEvs fs a)
  else .error (setupEvs fs a)

/-- The three external invocations of `process_direct` (lines 268-292):
`activate <key>`, the main command, `deactivate`.  A false activation result
returns early; a cancellation from any invocation propagates; the returned
success value is the main invocation's result, unaffected by the
deactivation result.  Also returns the list of argument vectors spawned. -/
def run_phase (sn : List String) (key : String) (argsList : List String)
    (runs : Nat → RunRes) : WfOutcome × List (List String) :=
  let act := sn ++ ["activate", key]
  match runs 0 with
  | .cancelled => (.cancelled, [act])
  | .completed false => (.earlyReturn, [act])
  | .completed true =>
    let mainArgs := sn ++ argsList
    match runs 1 with
    | .cancelled => (.cancelled, [act, mainArgs])
    | .completed b =>
      let deact := sn ++ ["deactivate"]
      match runs 2 with
      | .cancelled => (.cancelled, [act, mainArgs, deact])
      | .completed _ => (.finished b, [act, mainArgs, deact])

/-- Embedding of `main.process_direct`: setup/validation, then the
preparation step (whose outcome and filetable mutation are supplied by the
`prep` environment), then the condition-file write and the three external
invocations (results supplied by `runs`).  Returns the outcome, the event
trace and the final filetable. -/
def process_direct (sn : List String) (key : String) (fs : List String) (a : RunArgs)
    (prep : PrepRes) (runs : Nat → RunRes) : WfOutcome × List FsEv × List DataFileEntry :=
  match setup_direct fs a with
  | .error evs => (.earlyReturn, evs, a.datafiles)
  | .ok (a1, evs) =>
    match prep.sig with
    | .cancelled => (.earlyReturn, evs, prep.ft)
    | .failed => (.earlyReturn, evs, prep.ft)
    | .ok =>
      let condFile := pyJoin (paramsDir a1) (a1.experiment_name ++ "_condition.tsv")
      let a2 := { a1 with datafiles := prep.ft, condition_file := condFile }
      let argsList := get_full_args a2
      let res := run_phase sn key argsList runs
      (res.1, evs ++ [FsEv.write condFile] ++ res.2.map FsEv.run, prep.ft)

/-- Concrete argument record passing every validation check. -/
def exArgsOk : RunArgs :=
  { protocol := "direct", experiment_name := "exp", properties_file := "/p/prop.txt",
    fasta_file := "/p/db.fasta", go_file := "", report_file := "", output_directory := "/out",
    temp_directory := "", mod_repository := "", enzyme_database := "", condition_file := "",
    verbose := false, parquet := false, segmented := false, error_term := false,
    datafiles := [exThermo] }

/-- Concrete argument record with an unspecified properties file. -/
def exArgsNoProp : RunArgs :=
  { protocol := "direct", experiment_name := "exp", properties_file := "",
    fasta_file := "/p/db.fasta", go_file := "", report_file := "", output_directory := "/out",
    temp_directory := "", mod_repository := "", enzyme_database := "", condition_file := "",
    verbose := false, parquet := false, segmented := false, error_term := false,
    datafiles := [exThermo] }

/-- Concrete successful preparation outcome. -/
def exPrep : PrepRes := { ft := [exThermo], sig := PrepSignal.ok }

/-- Invocation results: activation completes successfully, the main
invocation raises a cancellation. -/
def exRunsCancelMain : Nat → RunRes :=
  fun n => if n = 0 then RunRes.completed true else RunRes.cancelled

/-- Invocation results: everything completes, the main invocation with a
non-zero exit code. -/
def exRunsMainFails : Nat → RunRes :=
  fun n => if n = 1 then RunRes.completed false else RunRes.completed true


theorem typesOf_mem {ft : List DataFileEntry} {e : DataFileEntry} (he : e ∈ ft) :
    e.type ∈ typesOf ft :=
  List.mem_toFinset.mpr (List.mem_map_of_mem _ he)

theorem typesOf_eq_of_all {ft : List DataFileEntry} {t : String} (hne : ft ≠ [])
    (hall : ∀ e ∈ ft, e.type = t) :
    typesOf ft = {t} := by
  apply Finset.Subset.antisymm
  · intro x hx
    rcases List.mem_map.mp (List.mem_toFinset.mp hx) with ⟨e, he, rfl⟩
    simp [hall e he]
  · intro x hx
    rcases List.exists_mem_of_ne_nil ft hne with ⟨e, he⟩
    rcases Finset.mem_singleton.mp hx with rfl
    exact hall e he ▸ typesOf_mem he

theorem validate_filetable_mixed {ft : List DataFileEntry}
    (h1 : ∃ e ∈ ft, e.type = "Thermo Raw")
    (h2 : ∃ e ∈ ft, e.type = "Bruker D" ∨ e.type = "Bruker D Zip") :
    validate_filetable ft = false := by
  obtain ⟨a, ha, hat⟩ := h1
  obtain ⟨b, hb, hbt⟩ := h2
  have hta : "Thermo Raw" ∈ typesOf ft := hat ▸ typesOf_mem ha
  unfold validate_filetable
  split_ifs with hc1 hc2 hc3
  · -- a single type which is "Thermo Raw": contradicts the Bruker member
    obtain ⟨x, hx⟩ := Finset.card_eq_one.mp hc1.1
    have hxa : "Thermo Raw" = x := Finset.mem_singleton.mp (hx ▸ hta)
    have hxb : b.type = x := Finset.mem_singleton.mp (hx ▸ typesOf_mem hb)
    rcases hbt with h | h <;> rw [h] at hxb <;> rw [← hxa] at hxb <;> exact absurd hxb (by decide)
  · -- a single type which is Bruker: contradicts the Thermo member
    obtain ⟨x, hx⟩ := Finset.card_eq_one.mp hc2.1
    have hxa : "Thermo Raw" = x := Finset.mem_singleton.mp (hx ▸ hta)
    rcases hc2.2 with h | h
    · have hxb : "Bruker D" = x := Finset.mem_singleton.mp (hx ▸ h)
      rw [← hxa] at hxb; exact absurd hxb (by decide)
    · have hxb : "Bruker D Zip" = x := Finset.mem_singleton.mp (hx ▸ h)
      rw [← hxa] at hxb; exact absurd hxb (by decide)
  · -- both Bruker types plus the Thermo type: at least three distinct types
    have hsub : ({"Thermo Raw", "Bruker D", "Bruker D Zip"} : Finset String) ⊆
        typesOf ft := by
      intro x hx
      rcases Finset.mem_insert.mp hx with rfl | hx
      · exact hta
      rcases Finset.mem_insert.mp hx with rfl | hx
      · exact hc3.2.1
      rcases Finset.mem_singleton.mp hx with rfl
      exact hc3.2.2
    have h3 := Finset.card_le_card hsub
    rw [hc3.1] at h3
    have : ({"Thermo Raw", "Bruker D", "Bruker D Zip"} : Finset String).card = 3 := by decide
    omega
  · rfl

theorem validate_filetable_thermo {ft : List DataFileEntry} (hne : ft ≠ [])
    (hall : ∀ e ∈ ft, e.type = "Thermo Raw") :
    validate_filetable ft = true := by
  unfold validate_filetable
  rw [typesOf_eq_of_all hne hall]
  decide

theorem validate_filetable_bruker {ft : List DataFileEntry} (hne : ft ≠ [])
    (hall : ∀ e ∈ ft, e.type = "Bruker D" ∨ e.type = "Bruker D Zip") :
    validate_filetable ft = true := by
  have hsub : typesOf ft ⊆ {"Bruker D", "Bruker D Zip"} := by
    intro x hx
    rcases List.mem_map.mp (List.mem_toFinset.mp hx) with ⟨e, he, rfl⟩
    rcases hall e he with h | h <;> simp [h]
  rcases List.exists_mem_of_ne_nil ft hne with ⟨e, he⟩
  have hmem := typesOf_mem he
  have hpos : 1 ≤ (typesOf ft).card :=
    Finset.card_pos.mpr ⟨e.type, hmem⟩
  have hle : (typesOf ft).card ≤ 2 := by
    have := Finset.card_le_card hsub
    have h2 : ({"Bruker D", "Bruker D Zip"} : Finset String).card = 2 := by decide
    omega
  interval_cases h : (typesOf ft).card
  · -- exactly one type, which is one of the two Bruker types
    obtain ⟨x, hx⟩ := Finset.card_eq_one.mp h
    have hxmem : x ∈ ({"Bruker D", "Bruker D Zip"} : Finset String) :=
      hsub (hx ▸ Finset.mem_singleton_self x)
    unfold validate_filetable
    rw [hx]
    rcases Finset.mem_insert.mp hxmem with rfl | hxmem
    · decide
    · rcases Finset.mem_singleton.mp hxmem with rfl
      decide
  · -- exactly two types: they must be the two Bruker types
    have heq : typesOf ft = {"Bruker D", "Bruker D Zip"} := by
      apply Finset.eq_of_subset_of_card_le hsub
      have h2 : ({"Bruker D", "Bruker D Zip"} : Finset String).card = 2 := by decide
      omega
    unfold validate_filetable
    rw [heq]
    decide

/-- C2: a filetable mixing a Thermo-native entry with a Bruker-native entry
(folder or zip) is rejected by `validate_filetable`; a non-empty filetable
whose entries are all Thermo Raw, all Bruker D, all Bruker D Zip, or a mix of
only Bruker D and Bruker D Zip, is accepted. -/
theorem c2_validate_families (ft : List DataFileEntry) :
    ((∃ e ∈ ft, e.type = "Thermo Raw") →
      (∃ e ∈ ft, e.type = "Bruker D" ∨ e.type = "Bruker D Zip") →
      validate_filetable ft = false)
    ∧ (ft ≠ [] → (∀ e ∈ ft, e.type = "Thermo Raw") → validate_filetable ft = true)
    ∧ (ft ≠ [] → (∀ e ∈ ft, e.type = "Bruker D") → validate_filetable ft = true)
    ∧ (ft ≠ [] → (∀ e ∈ ft, e.type = "Bruker D Zip") → validate_filetable ft = true)
    ∧ (ft ≠ [] → (∀ e ∈ ft, e.type = "Bruker D" ∨ e.type = "Bruker D Zip") →
      validate_filetable ft = true) := by
  refine ⟨fun h1 h2 => validate_filetable_mixed h1 h2,
    fun hne hall => validate_filetable_thermo hne hall,
    fun hne hall => validate_filetable_bruker hne (fun e he => Or.inl (hall e he)),
    fun hne hall => validate_filetable_bruker hne (fun e he => Or.inr (hall e he)),
    fun hne hall => validate_filetable_bruker hne hall⟩

/-- C2 witness: the theorem applied at concrete filetables. -/
theorem c2_validate_families_witness :
    validate_filetable [exThermo, exBrukerD] = false ∧
    validate_filetable [exBrukerD, exBrukerZip] = true :=
  ⟨(c2_validate_families [exThermo, exBrukerD]).1
      ⟨exThermo, by decide, by decide⟩ ⟨exBrukerD, by decide, Or.inl (by decide)⟩,
    (c2_validate_families [exBrukerD, exBrukerZip]).2.2.2.2 (by decide)
      (by
        intro e he
        have h : e = exBrukerD ∨ e = exBrukerZip := by simpa using he
        rcases h with rfl | rfl
        · exact Or.inl (by decide)
        · exact Or.inr (by decide))⟩

/-- C9: the empty filetable is rejected by `validate_filetable`: none of the
accepting branches applies when the set of types is empty. -/
theorem c9_validate_empty : validate_filetable [] = false := by decide

theorem substEntries_all_replicate (ft : List DataFileEntry) :
    (substEntries ft).all (fun e => pyBlank e.replicate) = ft.all (fun e => pyBlank e.replicate) := by
  simp only [substEntries, List.all_map]
  rfl

theorem substEntries_any_replicate (ft : List DataFileEntry) :
    (substEntries ft).any (fun e => pyBlank e.replicate) = ft.any (fun e => pyBlank e.replicate) := by
  simp only [substEntries, List.any_map]
  rfl

theorem substEntries_map_replicate (ft : List DataFileEntry) :
    (substEntries ft).map (fun e => e.replicate) = ft.map (fun e => e.replicate) := by
  simp only [substEntries, List.map_map]
  rfl

theorem rowsFrom_map_replicate : ∀ (l : List DataFileEntry) (i : Nat),
    (rowsFrom i l).map (fun r => r.replicate) = l.map (fun e => e.replicate)
  | [], _ => rfl
  | e :: rest, i => by
    simp only [rowsFrom, List.map_cons, rowsFrom_map_replicate rest (i + 1)]
    rfl

theorem rowsFrom_length : ∀ (l : List DataFileEntry) (i : Nat),
    (rowsFrom i l).length = l.length
  | [], _ => rfl
  | e :: rest, i => by simp [rowsFrom, rowsFrom_length rest (i + 1)]

theorem assignReps_length : ∀ (l : List DataFileEntry) (seen : List (String × String)),
    (assignReps seen l).length = l.length
  | [], _ => rfl
  | e :: rest, seen => by
    simp [assignReps, assignReps_length rest ((e.fraction, e.condition) :: seen)]

theorem assignReps_filter (k : String × String) :
    ∀ (l : List DataFileEntry) (seen : List (String × String)),
    ((assignReps seen l).filter (fun e => (e.fraction, e.condition) == k)).map
        (fun e => e.replicate)
      = (List.range' (seen.count k + 1)
          ((l.filter (fun e => (e.fraction, e.condition) == k)).length)).map toString
  | [], seen => by simp [assignReps]
  | e :: rest, seen => by
    by_cases h : (e.fraction, e.condition) = k
    · subst h
      simp only [assignReps, List.filter_cons, beq_self_eq_true, if_true, List.map_cons,
        List.length_cons, List.range'_succ, assignReps_filter (e.fraction, e.condition) rest
          ((e.fraction, e.condition) :: seen), List.count_cons_self]
    · have hbeq : ((e.fraction, e.condition) == k) = false := by
        exact beq_eq_false_iff_ne.mpr h
      simp only [assignReps, List.filter_cons, hbeq, Bool.false_eq_true, if_false,
        assignReps_filter k rest ((e.fraction, e.condition) :: seen),
        List.count_cons_of_ne (Ne.symm h)]

theorem rowsFrom_filter_map (k : String × String) :
    ∀ (l : List DataFileEntry) (i : Nat),
    ((rowsFrom i l).filter (fun r => (r.fraction, r.condition) == k)).map (fun r => r.replicate)
      = (l.filter (fun e => (e.fraction, e.condition) == k)).map (fun e => e.replicate)
  | [], _ => rfl
  | e :: rest, i => by
    simp only [rowsFrom, List.filter_cons]
    by_cases h : ((e.fraction, e.condition) == k) = true
    · simp only [mkRow, h, if_true, List.map_cons, rowsFrom_filter_map k rest (i + 1)]
    · simp only [mkRow, h, Bool.false_eq_true, if_false, rowsFrom_filter_map k rest (i + 1)]

theorem write_conditon_rows_assigned {ft : List DataFileEntry}
    (h : ft.all (fun e => pyBlank e.replicate) = true) :
    (write_conditon_rows ft).1 = rowsFrom 1 (assignReps [] (substEntries ft)) := by
  have hall : (substEntries ft).all (fun e => pyBlank e.replicate) = true := by
    rwa [substEntries_all_replicate]
  simp [write_conditon_rows, hall]

theorem write_conditon_rows_unchanged {ft : List DataFileEntry}
    (h : ft.all (fun e => pyBlank e.replicate) = false) :
    (write_conditon_rows ft).1.map (fun r => r.replicate) = ft.map (fun e => e.replicate)
      ∧ (write_conditon_rows ft).2 = ft.any (fun e => pyBlank e.replicate) := by
  have hall : (substEntries ft).all (fun e => pyBlank e.replicate) = false := by
    rwa [substEntries_all_replicate]
  constructor
  · simp [write_conditon_rows, hall, rowsFrom_map_replicate, substEntries_map_replicate]
  · simp [write_conditon_rows, hall, substEntries_any_replicate]

/-- C5: if every replicate field in the batch is blank, the written condition
table numbers the rows of each `(fraction, condition)` group contiguously
1, 2, ..., n in row order; if some but not all replicate fields are blank, no
replicate value is changed and the warning is logged. -/
theorem c5_replicate_autoassign (ft : List DataFileEntry) (k : String × String) :
    (ft.all (fun e => pyBlank e.replicate) = true →
      ((write_conditon_rows ft).1.filter (fun r => (r.fraction, r.condition) == k)).map
          (fun r => r.replicate)
        = (List.range' 1 (((write_conditon_rows ft).1.filter
            (fun r => (r.fraction, r.condition) == k)).length)).map toString)
    ∧ (ft.any (fun e => pyBlank e.replicate) = true →
      ft.all (fun e => pyBlank e.replicate) = false →
      (write_conditon_rows ft).1.map (fun r => r.replicate) = ft.map (fun e => e.replicate)
        ∧ (write_conditon_rows ft).2 = true) := by
  constructor
  · intro h
    rw [write_conditon_rows_assigned h, rowsFrom_filter_map, assignReps_filter]
    have hlen : ((rowsFrom 1 (assignReps [] (substEntries ft))).filter
        (fun r => (r.fraction, r.condition) == k)).length
        = (((substEntries ft)).filter (fun e => (e.fraction, e.condition) == k)).length := by
      have h1 := congrArg List.length (rowsFrom_filter_map k (assignReps [] (substEntries ft)) 1)
      have h2 := congrArg List.length (assignReps_filter k (substEntries ft) [])
      simp only [List.length_map] at h1 h2
      rw [h1, h2, List.length_range']
    rw [hlen]
    simp
  · intro hany hnall
    obtain ⟨h1, h2⟩ := write_conditon_rows_unchanged hnall
    exact ⟨h1, by rw [h2, hany]⟩

/-- C5 witness: the theorem applied at a concrete all-blank batch (two rows in
group `("f1", "c")`, one in `("f2", "c")`) and at a partially-filled batch. -/
theorem c5_replicate_autoassign_witness :
    (((write_conditon_rows c5ftA).1.filter (fun r => (r.fraction, r.condition) == ("f1", "c"))).map
        (fun r => r.replicate)
      = (List.range' 1 (((write_conditon_rows c5ftA).1.filter
          (fun r => (r.fraction, r.condition) == ("f1", "c"))).length)).map toString)
    ∧ ((write_conditon_rows c5ftB).1.map (fun r => r.replicate) = c5ftB.map (fun e => e.replicate)
      ∧ (write_conditon_rows c5ftB).2 = true) :=
  ⟨(c5_replicate_autoassign c5ftA ("f1", "c")).1 (by decide),
    (c5_replicate_autoassign c5ftB ("f1", "c")).2 (by decide) (by decide)⟩

theorem pyBlank_iff (s : String) :
    pyBlank s = true ↔
      (pyLower (pyStrip s) = "" ∨ pyLower (pyStrip s) = "none" ∨ pyLower (pyStrip s) = "nan") := by
  simp only [pyBlank, Bool.or_eq_true, beq_iff_eq]
  tauto

/-- C10: the blank test used on the replicate column accepts not only the
empty string but any value whose stripped, lowercased form is `none` or
`nan`; the all-blank test that enables auto-assignment and the
partially-blank test that triggers the warning both use this extended
notion. -/
theorem c10_blank_notion (ft : List DataFileEntry) :
    ((∀ e ∈ ft, pyLower (pyStrip e.replicate) = "" ∨ pyLower (pyStrip e.replicate) = "none" ∨
        pyLower (pyStrip e.replicate) = "nan") →
      (write_conditon_rows ft).1.map (fun r => r.replicate)
        = (assignReps [] (substEntries ft)).map (fun e => e.replicate))
    ∧ ((∃ e ∈ ft, pyLower (pyStrip e.replicate) = "" ∨ pyLower (pyStrip e.replicate) = "none" ∨
        pyLower (pyStrip e.replicate) = "nan") →
      (∃ e ∈ ft, pyLower (pyStrip e.replicate) ≠ "" ∧ pyLower (pyStrip e.replicate) ≠ "none" ∧
        pyLower (pyStrip e.replicate) ≠ "nan") →
      ((write_conditon_rows ft).1.map (fun r => r.replicate) = ft.map (fun e => e.replicate)
        ∧ (write_conditon_rows ft).2 = true)) := by
  constructor
  · intro hblank
    have hall : ft.all (fun e => pyBlank e.replicate) = true :=
      List.all_eq_true.mpr fun e he => (pyBlank_iff _).mpr (hblank e he)
    rw [write_conditon_rows_assigned hall, rowsFrom_map_replicate]
  · intro hsome hnot
    have hany : ft.any (fun e => pyBlank e.replicate) = true := by
      obtain ⟨e, he, hb⟩ := hsome
      exact List.any_eq_true.mpr ⟨e, he, (pyBlank_iff _).mpr hb⟩
    have hnall : ft.all (fun e => pyBlank e.replicate) = false := by
      obtain ⟨e, he, h1, h2, h3⟩ := hnot
      refine Bool.eq_false_iff.mpr fun hc => ?_
      rcases (pyBlank_iff _).mp (List.all_eq_true.mp hc e he) with h | h | h <;> contradiction
    obtain ⟨h1, h2⟩ := write_conditon_rows_unchanged hnall
    exact ⟨h1, by rw [h2, hany]⟩

/-- C10 witness: a batch whose replicates are `"None"` and `" nan "` is
auto-assigned, and a batch mixing `"NaN"` with `"2"` is left unchanged with
the warning raised. -/
theorem c10_blank_notion_witness :
    ((write_conditon_rows c10ftA).1.map (fun r => r.replicate)
      = (assignReps [] (substEntries c10ftA)).map (fun e => e.replicate))
    ∧ ((write_conditon_rows c10ftB).1.map (fun r => r.replicate)
        = c10ftB.map (fun e => e.replicate)
      ∧ (write_conditon_rows c10ftB).2 = true) :=
  ⟨(c10_blank_notion c10ftA).1 (by decide),
    (c10_blank_notion c10ftB).2 (by decide) (by decide)⟩

theorem rowsFrom_getElem? : ∀ (l : List DataFileEntry) (s i : Nat),
    (rowsFrom s l)[i]? = l[i]?.map (fun e => mkRow (s + i) e)
  | [], s, i => by simp [rowsFrom]
  | e :: rest, s, 0 => by simp [rowsFrom]
  | e :: rest, s, i + 1 => by
    have harith : s + 1 + i = s + (i + 1) := by omega
    simp [rowsFrom, rowsFrom_getElem? rest (s + 1) i, harith]

theorem assignReps_getElem? : ∀ (l : List DataFileEntry) (seen : List (String × String)) (i : Nat),
    ∃ rep, (assignReps seen l)[i]? = l[i]?.map (fun e => { e with replicate := rep })
  | [], seen, i => ⟨"", by simp [assignReps]⟩
  | e :: rest, seen, 0 =>
    ⟨toString (seen.count (e.fraction, e.condition) + 1), by simp [assignReps]⟩
  | e :: rest, seen, i + 1 => by
    obtain ⟨rep, h⟩ := assignReps_getElem? rest ((e.fraction, e.condition) :: seen) i
    exact ⟨rep, by simp [assignReps, h]⟩

/-- C8: the condition table artifact is the header line followed by one
tab-joined line per filetable row; row `i` carries sequence number `i + 1`,
the entry's reference flag, its name as run label, `'NA'`-substituted
condition and fraction, a label equal to the condition column, and the stem
of the entry name as file name. -/
theorem c8_condition_table (ft : List DataFileEntry) (i : Nat) (h : i < ft.length) :
    (write_conditon_file ft).1 = headerLine :: (write_conditon_rows ft).1.map rowLine
    ∧ (write_conditon_rows ft).1.length = ft.length
    ∧ ∃ rep e, ft[i]? = some e ∧ (write_conditon_rows ft).1[i]? = some
        { seq := i + 1, reference := e.reference, runLabel := e.name,
          condition := substNA e.condition, fraction := substNA e.fraction,
          replicate := rep, label := substNA e.condition, fileName := pyStem e.name } := by
  refine ⟨rfl, ?_, ?_⟩
  · simp only [write_conditon_rows]
    split <;> simp [rowsFrom_length, assignReps_length, substEntries]
  · have he : ft[i]? = some ft[i] := List.getElem?_eq_getElem h
    simp only [write_conditon_rows]
    split
    · obtain ⟨rep, hrep⟩ := assignReps_getElem? (substEntries ft) [] i
      refine ⟨rep, ft[i], he, ?_⟩
      rw [rowsFrom_getElem?, hrep]
      simp only [substEntries, List.getElem?_map, he, Option.map_some]
      rw [Nat.add_comm 1 i]
      rfl
    · refine ⟨(ft[i]).replicate, ft[i], he, ?_⟩
      rw [rowsFrom_getElem?]
      simp only [substEntries, List.getElem?_map, he, Option.map_some]
      rw [Nat.add_comm 1 i]
      rfl

/-- C8 witness: the theorem applied at a one-row table. -/
theorem c8_condition_table_witness :
    (write_conditon_file [exThermo]).1
        = headerLine :: (write_conditon_rows [exThermo]).1.map rowLine
    ∧ (write_conditon_rows [exThermo]).1.length = [exThermo].length
    ∧ ∃ rep e, [exThermo][0]? = some e ∧ (write_conditon_rows [exThermo]).1[0]? = some
        { seq := 0 + 1, reference := e.reference, runLabel := e.name,
          condition := substNA e.condition, fraction := substNA e.fraction,
          replicate := rep, label := substNA e.condition, fileName := pyStem e.name } :=
  c8_condition_table [exThermo] 0 (by decide)

theorem dropWhile_append_of_all {α : Type} (P : α → Bool) :
    ∀ (l₁ l₂ : List α), (∀ a ∈ l₁, P a = true) → (l₁ ++ l₂).dropWhile P = l₂.dropWhile P
  | [], l₂, _ => rfl
  | a :: l₁, l₂, h => by
    simp only [List.cons_append, List.dropWhile_cons, h a (List.mem_cons_self a l₁), if_true]
    exact dropWhile_append_of_all P l₁ l₂ (fun b hb => h b (List.mem_cons_of_mem a hb))

theorem pyParent_pyJoin (p s : String) (h : '/' ∉ s.toList) :
    pyParent (pyJoin p s) = p := by
  have hrev : (pyJoin p s).toList.reverse = s.toList.reverse ++ ('/' :: p.toList.reverse) := by
    have hdata : (pyJoin p s).toList = (p.toList ++ ['/']) ++ s.toList := rfl
    rw [hdata]
    simp
  unfold pyParent
  rw [hrev]
  dsimp only
  rw [dropWhile_append_of_all _ s.toList.reverse ('/' :: p.toList.reverse)
    (fun a ha => by
      have hmem : a ∈ s.toList := List.mem_reverse.mp ha
      simp only [decide_eq_true_eq]
      exact fun hc => h (hc ▸ hmem))]
  simp [List.dropWhile_cons]

/-- C4: the archive extractor worker returns `(index, true, dir, "")` with
`dir` the directory containing the marker file (the extraction directory
itself) when the marker exists after full extraction, returns
`(index, false, "", message)` when the marker is missing or an exception
occurs, and, being total over every environment, never raises to its
caller. -/
theorem c4_extract_worker (idx : Nat) (zipPath extractPath m : String) :
    _extract_zip_worker idx zipPath extractPath (ExtractEnv.extracted true)
        = (idx, true, extractPath, "")
    ∧ _extract_zip_worker idx zipPath extractPath (ExtractEnv.extracted false)
        = (idx, false, "", missingMsg zipPath)
    ∧ _extract_zip_worker idx zipPath extractPath (ExtractEnv.raises m)
        = (idx, false, "", m) := by
  refine ⟨?_, rfl, rfl⟩
  unfold _extract_zip_worker
  rw [pyParent_pyJoin _ _ (by decide)]

/-- C3: `run_cmd` returns True iff the process runs to completion with exit
code zero; a timeout logs an error, kills the process, waits for it and
returns False; a spawn failure logs and returns False; neither raises; only
cancellation of the calling task is re-raised, and only after killing and
awaiting the process. -/
theorem c3_runCmd_contract (env : RunEnv) :
    ((runCmd env).1 = CmdOutcome.ret true ↔ env = RunEnv.completes 0)
    ∧ (env = RunEnv.timesOut →
        (runCmd env).1 = CmdOutcome.ret false
          ∧ (runCmd env).2 = [CmdAct.spawn, CmdAct.logErr, CmdAct.kill, CmdAct.wait])
    ∧ (∀ m, env = RunEnv.spawnFail m →
        (runCmd env).1 = CmdOutcome.ret false ∧ CmdAct.logErr ∈ (runCmd env).2)
    ∧ ((runCmd env).1 = CmdOutcome.raisedCancelled ↔ env = RunEnv.cancelledDuring)
    ∧ (env = RunEnv.cancelledDuring →
        (runCmd env).2 = [CmdAct.spawn, CmdAct.kill, CmdAct.wait]) := by
  cases env <;> simp [runCmd]

/-- C3 witness: the theorem applied at the timeout, the zero-exit and the
cancellation environments. -/
theorem c3_runCmd_contract_witness :
    (runCmd RunEnv.timesOut).1 = CmdOutcome.ret false
      ∧ (runCmd RunEnv.timesOut).2 = [CmdAct.spawn, CmdAct.logErr, CmdAct.kill, CmdAct.wait]
      ∧ (runCmd (RunEnv.completes 0)).1 = CmdOutcome.ret true
      ∧ (runCmd RunEnv.cancelledDuring).2 = [CmdAct.spawn, CmdAct.kill, CmdAct.wait] :=
  ⟨((c3_runCmd_contract RunEnv.timesOut).2.1 rfl).1,
    ((c3_runCmd_contract RunEnv.timesOut).2.1 rfl).2,
    (c3_runCmd_contract (RunEnv.completes 0)).1.mpr rfl,
    (c3_runCmd_contract RunEnv.cancelledDuring).2.2.2.2 rfl⟩

theorem mem_ite_singleton {α : Type} (x y : α) (c : Prop) [Decidable c] :
    x ∈ (if c then [y] else ([] : List α)) ↔ c ∧ x = y := by
  split <;> simp_all

theorem foldl_append_flatten {α : Type} : ∀ (L : List (List α)) (acc : List α),
    L.foldl (fun i j => i ++ j) acc = acc ++ L.flatten
  | [], acc => by simp
  | l :: L, acc => by simp [foldl_append_flatten L (acc ++ l)]

theorem foldl_extend_eq : ∀ (l : List DataFileEntry) (init : List String),
    l.foldl (fun acc f => acc ++ ["-r", f.path]) init
      = init ++ (l.map (fun f => ["-r", f.path])).flatten
  | [], init => by simp
  | f :: l, init => by simp [foldl_extend_eq l (init ++ ["-r", f.path])]

/-- C7: argument-vector assembly is a deterministic function of the
options: each option maps to its fixed flag/value pair, present exactly when
the option is non-empty (strings) or true (booleans); no block ever contains
an empty string; flattening and the per-file `-r` pairs are appended
deterministically.  (The protocol values are the ones the program uses.) -/
theorem c7_args_assembly (a : RunArgs)
    (hpr : a.protocol = "direct" ∨ a.protocol = "convert" ∨ a.protocol = "") :
    (["-setTemp", a.temp_directory] ∈ _parse_args a ↔ a.temp_directory ≠ "")
    ∧ (["--importModRepository", a.mod_repository] ∈ _parse_args a ↔ a.mod_repository ≠ "")
    ∧ (["--importEnzymeDB", a.enzyme_database] ∈ _parse_args a ↔ a.enzyme_database ≠ "")
    ∧ (a.protocol ≠ "" → [a.protocol] ∈ _parse_args a)
    ∧ (["-n", a.experiment_name] ∈ _parse_args a ↔ a.experiment_name ≠ "")
    ∧ (["-con", a.condition_file] ∈ _parse_args a ↔ a.condition_file ≠ "")
    ∧ (["-s", a.properties_file] ∈ _parse_args a ↔ a.properties_file ≠ "")
    ∧ (["-rs", a.report_file] ∈ _parse_args a ↔ a.report_file ≠ "")
    ∧ (["-fasta", a.fasta_file] ∈ _parse_args a ↔ a.fasta_file ≠ "")
    ∧ (["-go", a.go_file] ∈ _parse_args a ↔ a.go_file ≠ "")
    ∧ (["-o", a.output_directory] ∈ _parse_args a ↔ a.output_directory ≠ "")
    ∧ (["--verbose"] ∈ _parse_args a ↔ a.verbose = true)
    ∧ (["--writeParquet"] ∈ _parse_args a ↔ a.parquet = true)
    ∧ (["--terminateAfterError"] ∈ _parse_args a ↔ a.error_term = true)
    ∧ (["-segmented"] ∈ _parse_args a ↔ a.segmented = true)
    ∧ (∀ l ∈ _parse_args a, ¬ "" ∈ l)
    ∧ get_args a = (_parse_args a).flatten
    ∧ get_full_args a = get_args a ++ (a.datafiles.map (fun f => ["-r", f.path])).flatten := by
  have hnoempty : ∀ l ∈ _parse_args a, ¬ "" ∈ l := by
    intro l hl
    simp only [_parse_args, List.mem_append, mem_ite_singleton] at hl
    rcases hl with (((((((((((((⟨hc, he⟩ | ⟨hc, he⟩) | ⟨hc, he⟩) | ⟨hc, he⟩) | ⟨hc, he⟩) | ⟨hc, he⟩) | ⟨hc, he⟩) | ⟨hc, he⟩) | ⟨hc, he⟩) | ⟨hc, he⟩) | ⟨hc, he⟩) | ⟨hc, he⟩) | ⟨hc, he⟩) | ⟨hc, he⟩) | ⟨hc, he⟩ <;> subst he <;> intro hmem <;>
      simp only [List.mem_cons, List.not_mem_nil, or_false] at hmem <;>
      first
        | (rcases hmem with h | h
           · exact absurd h (by decide)
           · exact hc h.symm)
        | exact hc hmem.symm
        | exact absurd hmem (by decide)
  have hga : get_args a = (_parse_args a).flatten := by
    unfold get_args
    rw [foldl_append_flatten]
    simp
  have hgf : get_full_args a = get_args a ++ (a.datafiles.map (fun f => ["-r", f.path])).flatten := by
    unfold get_full_args
    rw [foldl_extend_eq]
  rcases hpr with h | h | h <;>
    refine ⟨?_, ?_, ?_, ?_, ?_, ?_, ?_, ?_, ?_, ?_, ?_, ?_, ?_, ?_, ?_, hnoempty, hga, hgf⟩ <;>
      simp [_parse_args, mem_ite_singleton, h]

/-- C7 witness: the theorem applied at a concrete options record. -/
theorem c7_args_assembly_witness :
    ["-setTemp", "/tmpdir"] ∈ _parse_args c7args
      ∧ ["--verbose"] ∈ _parse_args c7args
      ∧ get_full_args c7args
        = get_args c7args ++ ([["-r", "/data/s1.raw"]] : List (List String)).flatten :=
  ⟨(c7_args_assembly c7args (Or.inl rfl)).1.mpr (by decide),
    (c7_args_assembly c7args (Or.inl rfl)).2.2.2.2.2.2.2.2.2.2.2.1.mpr rfl,
    (c7_args_assembly c7args (Or.inl rfl)).2.2.2.2.2.2.2.2.2.2.2.2.2.2.2.2.2⟩

theorem mkdirEvs_no_run (fs : List String) (p : String) :
    (mkdirEvs fs p).any isRunEv = false := by
  unfold mkdirEvs; split <;> rfl

theorem copyEvsE_no_run (fs : List String) (pf src : String) :
    (copyEvsE fs pf src).any isRunEv = false := by
  unfold copyEvsE; split <;> rfl

theorem copyEvsG_no_run (fs : List String) (pf src : String) :
    (copyEvsG fs pf src).any isRunEv = false := by
  unfold copyEvsG; split <;> rfl

theorem setupEvs_no_run (fs : List String) (a : RunArgs) :
    (setupEvs fs a).any isRunEv = false := by
  simp [setupEvs, List.any_append, mkdirEvs_no_run, copyEvsE_no_run, copyEvsG_no_run, isRunEv]

theorem setup_error_no_run {fs : List String} {a : RunArgs} {evs : List FsEv}
    (h : setup_direct fs a = .error evs) : evs.any isRunEv = false := by
  unfold setup_direct at h
  split_ifs at h <;>
    (injection h with h; subst h;
     first
       | rfl
       | exact mkdirEvs_no_run fs a.output_directory
       | exact setupEvs_no_run fs a)

theorem setup_error_of_invalid (fs : List String) (a : RunArgs)
    (h : a.datafiles = [] ∨ a.output_directory = "" ∨ a.properties_file = ""
      ∨ a.fasta_file = "" ∨ validate_filetable a.datafiles = false) :
    ∃ evs, setup_direct fs a = .error evs := by
  unfold setup_direct
  split_ifs with h1 h2 h3 h4 h5
  · exact ⟨_, rfl⟩
  · exact ⟨_, rfl⟩
  · exact ⟨_, rfl⟩
  · exact ⟨_, rfl⟩
  · exfalso
    rcases h with h | h | h | h | h
    · simp [h] at h1
    · exact h2 h
    · exact h3 h
    · exact h4 h
    · simp [h] at h5
  · exact ⟨_, rfl⟩

/-- C6 (amended): every validation failure (empty file list, missing
output directory, missing properties or FASTA file, or a filetable failing
the homogeneity invariant) makes the workflow return early, before any
subprocess is spawned and without modifying the filetable; directory
creation and parameter-file copies, however, may already have happened for
the checks that come after them. -/
theorem c6_validation_early_return (sn : List String) (key : String) (fs : List String)
    (a : RunArgs) (prep : PrepRes) (runs : Nat → RunRes)
    (h : a.datafiles = [] ∨ a.output_directory = "" ∨ a.properties_file = ""
      ∨ a.fasta_file = "" ∨ validate_filetable a.datafiles = false) :
    (process_direct sn key fs a prep runs).1 = WfOutcome.earlyReturn
    ∧ (process_direct sn key fs a prep runs).2.1.any isRunEv = false
    ∧ (process_direct sn key fs a prep runs).2.2 = a.datafiles := by
  obtain ⟨evs, hevs⟩ := setup_error_of_invalid fs a h
  unfold process_direct
  rw [hevs]
  exact ⟨rfl, setup_error_no_run hevs, rfl⟩

/-- C1 (amended): when activation succeeded and the main invocation
completed (returned a boolean rather than raising a cancellation), the
deactivate invocation is always attempted, even when the main invocation
failed, and a completed deactivation never changes the returned success
value; a cancellation raised by the main invocation propagates instead and
skips deactivation (see the counterexample). -/
theorem c1_deactivation (sn : List String) (key : String) (fs : List String) (a a1 : RunArgs)
    (evs : List FsEv) (prep : PrepRes) (runs : Nat → RunRes) (b : Bool)
    (hs : setup_direct fs a = .ok (a1, evs)) (hp : prep.sig = PrepSignal.ok)
    (h0 : runs 0 = RunRes.completed true) (h1 : runs 1 = RunRes.completed b) :
    FsEv.run (sn ++ ["deactivate"]) ∈ (process_direct sn key fs a prep runs).2.1
    ∧ (∀ b2, runs 2 = RunRes.completed b2 →
        (process_direct sn key fs a prep runs).1 = WfOutcome.finished b) := by
  unfold process_direct
  rw [hs, hp]
  dsimp only
  unfold run_phase
  rw [h0, h1]
  dsimp only
  constructor
  · cases h2 : runs 2 <;> simp
  · intro b2 h2
    rw [h2]

/-- C1 counterexample: activation succeeded and the main invocation raised a
cancellation; the workflow outcome is the propagated cancellation and the
deactivate invocation is never attempted. -/
theorem c1_counterexample :
    (process_direct ["sn"] "key" [] exArgsOk exPrep exRunsCancelMain).1 = WfOutcome.cancelled
    ∧ ¬ FsEv.run ["sn", "deactivate"]
        ∈ (process_direct ["sn"] "key" [] exArgsOk exPrep exRunsCancelMain).2.1 := by
  decide

/-- C1 witness: activation succeeded, the main invocation completed with
failure; deactivation is attempted and the returned success value is the main
invocation's result, unchanged by the successful deactivation. -/
theorem c1_deactivation_witness :
    FsEv.run (["sn"] ++ ["deactivate"])
        ∈ (process_direct ["sn"] "key" [] exArgsOk exPrep exRunsMainFails).2.1
    ∧ (process_direct ["sn"] "key" [] exArgsOk exPrep exRunsMainFails).1
        = WfOutcome.finished false :=
  ⟨(c1_deactivation ["sn"] "key" [] exArgsOk (setupArgs [] exArgsOk) (setupEvs [] exArgsOk)
      exPrep exRunsMainFails false rfl rfl rfl rfl).1,
    (c1_deactivation ["sn"] "key" [] exArgsOk (setupArgs [] exArgsOk) (setupEvs [] exArgsOk)
      exPrep exRunsMainFails false rfl rfl rfl rfl).2 true rfl⟩

/-- C6 counterexample: with a non-existing output directory and an empty
properties file the workflow stops with a validation failure, but the trace
already contains the creation of the output directory: the filesystem is
modified before the validation failure is reported. -/
theorem c6_counterexample :
    (process_direct ["sn"] "key" [] exArgsNoProp exPrep exRunsMainFails).1
        = WfOutcome.earlyReturn
    ∧ FsEv.mkdir "/out" ∈ (process_direct ["sn"] "key" [] exArgsNoProp exPrep exRunsMainFails).2.1 := by
  decide

/-- C6 witness: the amended theorem applied at the concrete invalid input. -/
theorem c6_validation_early_return_witness :
    (process_direct ["sn"] "key" [] exArgsNoProp exPrep exRunsMainFails).1
        = WfOutcome.earlyReturn
    ∧ (process_direct ["sn"] "key" [] exArgsNoProp exPrep exRunsMainFails).2.1.any isRunEv = false
    ∧ (process_direct ["sn"] "key" [] exArgsNoProp exPrep exRunsMainFails).2.2
        = exArgsNoProp.datafiles :=
  c6_validation_early_return ["sn"] "key" [] exArgsNoProp exPrep exRunsMainFails
    (Or.inr (Or.inr (Or.inl rfl)))
